import Mathlib

/-!
Verification of the Upbit weekday DCA bot (`src/upbit_noon_weekday_dca.py`).

The Python module is shallowly embedded below.  Conventions used throughout:

* Python floats (budget, fee rate, minimum order size) are modelled as exact
  rationals `ℚ`; Python `int(...)` truncation is `pyInt`.
* `datetime.now(KST)` is modelled by a `DateTime` record of the components the
  program reads (year, month, day, hour, minute, weekday with Monday = 0).
* Module-level configuration read from the environment is gathered into a
  `Config` record which is threaded into every function.
* The network is an oracle (`World`): the existence lookup and the order
  submission receive the response the exchange would have produced.  A raised
  Python exception that escapes a function is an explicit constructor
  (`LookupResp.fault`, `HttpResp.transportFault`, `BuyResult.raised`).
* JSON bodies are the inductive `Json` (numbers restricted to integers, which
  is all the classification logic can distinguish); `json.dumps` is `dumps`,
  with its default `ensure_ascii` behaviour: short escapes for the named
  control characters, `\uXXXX` (lowercase hex) for the other controls, for
  `0x7F` and for all non-ASCII characters, and UTF-16 surrogate pairs for
  characters beyond `0xFFFF`, so its output is pure ASCII exactly as in
  CPython.  Python `str.lower` is `strLower`, which maps every character
  whose Python lowercase contains an ASCII letter exactly (ASCII `A`-`Z`,
  the Latin-1 uppercase range, `U+212A` KELVIN SIGN to `k`, and `U+0130`
  to `i` followed by `U+0307`) and keeps every other character: no other
  character's Python lowercase contains an ASCII character, so every
  ASCII-word containment test the program performs coincides with CPython.
-/

namespace UpbitDca

/-- Components of a Python `datetime` in the trading timezone (KST) that the
program reads.  `weekday` follows Python: Monday = 0 .. Sunday = 6. -/
structure DateTime where
  year : Nat
  month : Nat
  day : Nat
  hour : Nat
  minute : Nat
  weekday : Nat
deriving Repr, DecidableEq

/-- Module-level configuration of `upbit_noon_weekday_dca.py` (lines 31-54).
`ALLOWED_HOURS` is a Python set used only for membership, modelled as a list.
`WINDOW_MINUTES` is a Python `int`, hence `Int`.  The two credentials are
`os.environ.get` results: `none` models an absent variable. -/
structure Config where
  windowMinutes : Int
  strictTimeOnly : Bool
  allowedHours : List Nat
  dailyBudgetKrw : ℚ
  pairs : List (String × ℚ)
  feeRate : ℚ
  minOrderKrw : ℚ
  dcaPause : Bool
  accessKey : Option String
  secretKey : Option String

/-- Python truthiness of an `os.environ.get` result: `None` and `""` are
falsy (`not os.environ.get(k)` in line 58). -/
def envFalsy : Option String → Bool
  | none => true
  | some s => s.isEmpty

/-- Embeds `_require_env` (lines 56-59): raises `RuntimeError` iff either
credential is absent or empty.  (The error message always lists both names;
the claims do not depend on the message text.) -/
def require_env (access secret : Option String) : Except String Unit :=
  if envFalsy access || envFalsy secret then
    .error "missing env: UPBIT_ACCESS_KEY, UPBIT_SECRET_KEY"
  else
    .ok ()

/-- Embeds `_is_weekday_kst` (lines 61-62): Monday..Friday. -/
def is_weekday_kst (now : DateTime) : Bool :=
  now.weekday ≤ 4

/-- Embeds `_is_target_window` (lines 64-67): with strict checking the hour
must be allowed and `0 <= now.minute <= WINDOW_MINUTES`. -/
def is_target_window (cfg : Config) (now : DateTime) : Bool :=
  if !cfg.strictTimeOnly then
    true
  else
    cfg.allowedHours.contains now.hour
      && decide ((0 : Int) ≤ (now.minute : Int))
      && decide (((now.minute : Int)) ≤ cfg.windowMinutes)

/-- Python `int()` truncation toward zero, on the exact-rational model of
floats. -/
def pyInt (q : ℚ) : Int :=
  if 0 ≤ q then ⌊q⌋ else -⌊-q⌋

/-- Embeds `_amount_net_of_fee` (lines 69-75): `price = int(budget / (1 +
fee_rate))`, raised to `int(min_total)` when below it. -/
def amount_net_of_fee (budget fee_rate min_total : ℚ) : Int :=
  let raw := budget / (1 + fee_rate)
  let price := pyInt raw
  if price < pyInt min_total then pyInt min_total else price

/-- Left-pads a decimal rendering with zeros, as `strftime` does. -/
def zfill (k : Nat) (s : String) : String :=
  String.mk (List.replicate (k - s.length) '0' ++ s.data)

/-- Embeds `now.strftime("%Y%m%d")` (line 174): the calendar date rendered as
a zero-padded `YYYYMMDD` tag; it reads only the date components. -/
def date_tag (now : DateTime) : String :=
  zfill 4 (toString now.year) ++ zfill 2 (toString now.month) ++ zfill 2 (toString now.day)

/-- Embeds the idempotency-key derivation `f"dca-{date_tag}-{market}"`
(lines 179 and 194). -/
def deriveKey (dateTag market : String) : String :=
  "dca-" ++ dateTag ++ "-" ++ market

/-- JSON values as produced by `resp.json()`.  Numbers are restricted to
integers: the classification logic only ever serializes or truth-tests them,
and no claim depends on fractional numeric payloads. -/
inductive Json where
  | null
  | bool (b : Bool)
  | num (n : Int)
  | str (s : String)
  | arr (elems : List Json)
  | obj (fields : List (String × Json))

/-- Python truthiness of a parsed JSON value. -/
def pyTruthy : Json → Bool
  | .null => false
  | .bool b => b
  | .num n => !(n == 0)
  | .str s => !s.isEmpty
  | .arr xs => !xs.isEmpty
  | .obj fs => !fs.isEmpty

/-- Python `dict.get(k)` on a parsed JSON object: the value, or `None`
(modelled as `Json.null`) when the key is missing. -/
def dictGet (fs : List (String × Json)) (k : String) : Json :=
  match fs.find? (fun p => p.1 == k) with
  | some p => p.2
  | none => .null

/-- Python `k in dict`. -/
def hasKey (fs : List (String × Json)) (k : String) : Bool :=
  (fs.find? (fun p => p.1 == k)).isSome

/-- Python `str.lower()` of one character.  Exact on every character whose
Python lowercase contains an ASCII letter: ASCII `A`-`Z`, the Latin-1
uppercase range `U+00C0`-`U+00DE` (except the multiplication sign), the
KELVIN SIGN `U+212A` (whose lowercase is ASCII `k`), and `U+0130` (whose
full lowering is `i` followed by the combining dot `U+0307`).  All other
characters are kept unchanged: none of their Python lowercase forms
contains an ASCII character, so every ASCII-word containment test performed
by the program is unaffected. -/
def pyLowerChar (c : Char) : List Char :=
  let n := c.toNat
  if 65 ≤ n ∧ n ≤ 90 then [Char.ofNat (n + 32)]
  else if 192 ≤ n ∧ n ≤ 222 ∧ n ≠ 215 then [Char.ofNat (n + 32)]
  else if n = 304 then [Char.ofNat 105, Char.ofNat 775]
  else if n = 8490 then [Char.ofNat 107]
  else [c]

/-- Python `str.lower()`, applied characterwise via `pyLowerChar`. -/
def strLower (s : String) : String :=
  String.mk (s.data.flatMap pyLowerChar)

/-- Python substring containment `pat in s`: some suffix of `s` starts with
`pat`. -/
def containsSub (s pat : String) : Bool :=
  (List.range (s.toList.length + 1)).any (fun i => pat.toList.isPrefixOf (s.toList.drop i))

/-- The duplicate-identifier wording test of line 93 and line 98, applied to
an already-lowercased string: it must contain `"identifier"` together with
one of `"already"`, `"taken"`, `"exists"`. -/
def dupWording (msg : String) : Bool :=
  containsSub msg "identifier"
    && (containsSub msg "already" || containsSub msg "taken" || containsSub msg "exists")

/-- One lowercase hexadecimal digit. -/
def hexDigit (n : Nat) : Char :=
  if n < 10 then Char.ofNat (48 + n) else Char.ofNat (87 + n)

/-- Four lowercase hexadecimal digits, as produced by `json.dumps` inside a
`\uXXXX` escape. -/
def hex4 (n : Nat) : String :=
  String.mk [hexDigit (n / 4096 % 16), hexDigit (n / 256 % 16),
             hexDigit (n / 16 % 16), hexDigit (n % 16)]

/-- JSON string escaping of one character as `json.dumps` performs it with
its default `ensure_ascii=True`: backslash escapes for quote, backslash and
the named control characters, `\uXXXX` for the remaining controls, `0x7F`
and the non-ASCII plane-0 characters, and a UTF-16 surrogate pair for
characters beyond `0xFFFF`; the printable ASCII range `0x20`-`0x7E` passes
through. -/
def escapeChar (c : Char) : String :=
  let n := c.toNat
  if c == '"' then "\\\""
  else if c == '\\' then "\\\\"
  else if n == 8 then "\\b"
  else if n == 9 then "\\t"
  else if n == 10 then "\\n"
  else if n == 12 then "\\f"
  else if n == 13 then "\\r"
  else if n < 32 then "\\u" ++ hex4 n
  else if n < 127 then String.singleton c
  else if n < 65536 then "\\u" ++ hex4 n
  else
    "\\u" ++ hex4 (55296 + (n - 65536) / 1024) ++ "\\u" ++ hex4 (56320 + (n - 65536) % 1024)

/-- Escapes every character of a string for JSON output. -/
def escapeStr (s : String) : String :=
  String.join (s.toList.map escapeChar)

mutual

/-- Models `json.dumps` (line 97) with its default separators. -/
def dumps : Json → String
  | .null => "null"
  | .bool b => cond b "true" "false"
  | .num n => toString n
  | .str s => "\"" ++ escapeStr s ++ "\""
  | .arr xs => "[" ++ dumpsList xs ++ "]"
  | .obj fs => "\x7b" ++ dumpsFields fs ++ "\x7d"

/-- Serializes the elements of a JSON array, comma separated. -/
def dumpsList : List Json → String
  | [] => ""
  | [x] => dumps x
  | x :: y :: xs => dumps x ++ ", " ++ dumpsList (y :: xs)

/-- Serializes the fields of a JSON object, comma separated. -/
def dumpsFields : List (String × Json) → String
  | [] => ""
  | [(k, v)] => "\"" ++ escapeStr k ++ "\": " ++ dumps v
  | (k, v) :: f :: fs => "\"" ++ escapeStr k ++ "\": " ++ dumps v ++ ", " ++ dumpsFields (f :: fs)

end

/-- The `msg` computed on line 92: `(err.get("message") or "").lower()`.
Returns `none` when Python would raise (`.lower()` on a truthy non-string). -/
def msgOf (errFs : List (String × Json)) : Option String :=
  let v := dictGet errFs "message"
  if pyTruthy v then
    match v with
    | .str s => some (strLower s)
    | _ => none
  else
    some ""

/-- The `err` value of line 91: `resp_json.get("error") or {}`. -/
def errSel (fs : List (String × Json)) : Json :=
  if pyTruthy (dictGet fs "error") then dictGet fs "error" else Json.obj []

/-- The (lowercased) error message `msg` of lines 91-92 for a whole response
body: `none` when the source would raise before producing a string (`err` is
a truthy non-dict, or the message is a truthy non-string), and for a
non-dict body, which never reaches line 91. -/
def errorMessage (j : Json) : Option String :=
  match j with
  | .obj fs =>
    match errSel fs with
    | .obj errFs => msgOf errFs
    | _ => none
  | _ => none

/-- The lowercased `json.dumps(err["errors"])` of line 97 when the `errors`
key is present, `none` otherwise (or when line 95 is unreachable). -/
def errorsDump (j : Json) : Option String :=
  match j with
  | .obj fs =>
    match errSel fs with
    | .obj errFs =>
      if hasKey errFs "errors" then
        some (strLower (dumps (dictGet errFs "errors")))
      else
        none
    | _ => none
  | _ => none

/-- Embeds `_is_duplicate_identifier_error` (lines 88-102): non-dict bodies
are `False`; otherwise test the message for duplicate wording, then fall
back to the serialized `errors` field.  `none` models an uncaught exception
escaping the function (`err.get` or `.lower()` on a value of the wrong
shape); the caller then raises in turn. -/
def is_duplicate_identifier_error (j : Json) : Option Bool :=
  match j with
  | .obj _ =>
    match errorMessage j with
    | none => none
    | some msg =>
      if dupWording msg then
        some true
      else
        match errorsDump j with
        | some s => some (dupWording s)
        | none => some false
  | _ => some false

/-- Whether the `err["errors"]` fallback of lines 95-99 detects duplicate
wording in the serialized sub-object. -/
def errorsFieldDup (j : Json) : Bool :=
  match errorsDump j with
  | some s => dupWording s
  | none => false

/-- Whether an error body carries duplicate-identifier wording anywhere the
source looks for it (message, or serialized `errors` field). -/
def bodyHasDupWording (j : Json) : Bool :=
  (match errorMessage j with
   | some m => dupWording m
   | none => false)
  || errorsFieldDup j

/-- An HTTP response delivered to `requests`, or a transport fault raised
before a response exists (timeout, connection error).  `body = none` models
a body `resp.json()` cannot parse. -/
inductive HttpResp where
  | resp (status : Nat) (body : Option Json)
  | transportFault

/-- Result of one `_place_market_buy` call as observed by `main`:
a parsed success body, the synthetic duplicate-identifier dict of line 141,
or an exception propagating out of the function. -/
inductive BuyResult where
  | ok (body : Json)
  | duplicateAccepted (identifier market : String)
  | raised

/-- Embeds `_place_market_buy` (lines 116-142).  `raise_for_status` raises
for statuses 400-599; on such an error the body is classified by
`_is_duplicate_identifier_error` (an unparseable body becomes the
`{"error_text": ...}` dict of line 139, which never matches); on a
non-error status `r.json()` is returned, and its parse failure is an
uncaught exception. -/
def place_market_buy (resp : HttpResp) (identifier market : String) : BuyResult :=
  match resp with
  | .transportFault => .raised
  | .resp status body =>
    if 400 ≤ status ∧ status < 600 then
      let respJson : Json :=
        match body with
        | some j => j
        | none => .obj [("error_text", .str "unparseable body")]
      match is_duplicate_identifier_error respJson with
      | some true => .duplicateAccepted identifier market
      | _ => .raised
    else
      match body with
      | some j => .ok j
      | none => .raised

/-- Network answer to the existence lookup `GET /v1/order?identifier=...`:
a status code, or a raised transport exception. -/
inductive LookupResp where
  | status (code : Nat)
  | fault

/-- The network oracle for one invocation: what the exchange answers to the
existence lookup of each identifier, and to the order submission of each
(market, price, identifier) triple. -/
structure World where
  lookup : String → LookupResp
  submit : String → Int → String → HttpResp

/-- Embeds `_order_exists_by_identifier` (lines 104-114): `status == 200`
means the order exists; any exception is swallowed and reported as `False`
(lines 112-114). -/
def order_exists_by_identifier (w : World) (identifier : String) : Bool :=
  match w.lookup identifier with
  | .status code => code == 200
  | .fault => false

/-- The `ok` test of line 198: `res.get("result") in (None, "success",
"duplicate_identifier_accepted")` on the fields of a success body.  A missing
key and a JSON `null` both give Python `None`. -/
def resultOk (fs : List (String × Json)) : Bool :=
  match (fs.find? (fun p => p.1 == "result")).map (fun p => p.2) with
  | none => true
  | some Json.null => true
  | some (Json.str s) => s == "success" || s == "duplicate_identifier_accepted"
  | some _ => false

/-- Whether the business-result field of a success body explicitly signals a
non-success: present, non-null, and different from the two accepted markers
(the complement of the accept-tuple of line 198). -/
def resultSignalsFailure (fs : List (String × Json)) : Bool :=
  match (fs.find? (fun p => p.1 == "result")).map (fun p => p.2) with
  | none => false
  | some Json.null => false
  | some (Json.str s) => !(s == "success" || s == "duplicate_identifier_accepted")
  | some _ => true

/-- The submission response `main` observes for one asset leg, assembled
exactly as lines 192-197 do: per-asset budget, fee-net amount, derived
identifier, then `_place_market_buy` against the network oracle. -/
def submitRespOf (cfg : Config) (dateTag : String) (w : World) (p : String × ℚ) : BuyResult :=
  let budget := cfg.dailyBudgetKrw * p.2
  let price := amount_net_of_fee budget cfg.feeRate cfg.minOrderKrw
  let identifier := deriveKey dateTag p.1
  place_market_buy (w.submit p.1 price identifier) identifier p.1

/-- Whether one asset leg ends the loop body of lines 196-221 in a state the
run counts as an error: a raised exception (line 219), a success body whose
shape makes `res.get` raise, or a success body whose result field is not
accepted (`ok` false, line 216). -/
def submissionFailed (cfg : Config) (dateTag : String) (w : World) (p : String × ℚ) : Bool :=
  match submitRespOf cfg dateTag w p with
  | .raised => true
  | .ok (.obj fs) => !resultOk fs
  | .ok _ => true
  | .duplicateAccepted _ _ => false

/-- Whether one asset leg reaches the `results.append` of line 208 (no
exception escaped the loop body before it). -/
def submissionRecorded (cfg : Config) (dateTag : String) (w : World) (p : String × ℚ) : Bool :=
  match submitRespOf cfg dateTag w p with
  | .raised => false
  | .ok (.obj _) => true
  | .ok _ => false
  | .duplicateAccepted _ _ => true

/-- One entry of the `results` list built on lines 208-215. -/
structure AssetRecord where
  market : String
  budget_krw : ℚ
  price_krw : Int
  fee_rate : ℚ
  identifier : String
  api_result : BuyResult
  ok : Bool

/-- Embeds the order loop of lines 190-221: per asset, compute the budget,
amount and identifier, submit, append a record unless an exception escaped,
and count an error for a raised exception or a rejected result field. -/
def runOrders (cfg : Config) (dateTag : String) (w : World) :
    List (String × ℚ) → List AssetRecord × Nat
  | [] => ([], 0)
  | p :: rest =>
    let budget := cfg.dailyBudgetKrw * p.2
    let price := amount_net_of_fee budget cfg.feeRate cfg.minOrderKrw
    let identifier := deriveKey dateTag p.1
    let tail := runOrders cfg dateTag w rest
    match submitRespOf cfg dateTag w p with
    | .raised => (tail.1, tail.2 + 1)
    | .ok (.obj fs) =>
      (⟨p.1, budget, price, cfg.feeRate, identifier, .ok (.obj fs), resultOk fs⟩ :: tail.1,
       tail.2 + (if resultOk fs then 0 else 1))
    | .ok _ => (tail.1, tail.2 + 1)
    | .duplicateAccepted i m =>
      (⟨p.1, budget, price, cfg.feeRate, identifier, .duplicateAccepted i m, true⟩ :: tail.1,
       tail.2)

/-- The `markets_todo` list of lines 177-183: configured pairs whose
identifier the existence pre-check does not find. -/
def marketsTodo (cfg : Config) (dateTag : String) (w : World) : List (String × ℚ) :=
  cfg.pairs.filter (fun p => !order_exists_by_identifier w (deriveKey dateTag p.1))

/-- Observable outcome of one `main` run.  `summaryPrinted` records whether
the JSON summary of lines 224-234 was written to stdout (the paused branch
prints a plain string, the gated branches only log). -/
structure RunResult where
  exitCode : Nat
  summaryPrinted : Bool
  results : List AssetRecord
  errors : Nat

/-- Result of the whole process body: either `main` returned an exit code, or
the `RuntimeError` of `_require_env` escaped. -/
inductive RunOutcome where
  | configError
  | completed (r : RunResult)

/-- Embeds `main` (lines 157-236): pause short-circuit, credential check,
weekday gate, window gate, existence pre-check, order loop, summary, exit
code `1 if errors else 0`. -/
def main (cfg : Config) (now : DateTime) (w : World) : RunOutcome :=
  if cfg.dcaPause then
    .completed ⟨0, false, [], 0⟩
  else
    match require_env cfg.accessKey cfg.secretKey with
    | .error _ => .configError
    | .ok _ =>
      if !is_weekday_kst now then
        .completed ⟨0, false, [], 0⟩
      else if !is_target_window cfg now then
        .completed ⟨0, false, [], 0⟩
      else
        let dateTag := date_tag now
        let todo := marketsTodo cfg dateTag w
        if todo.isEmpty then
          .completed ⟨0, false, [], 0⟩
        else
          let out := runOrders cfg dateTag w todo
          .completed ⟨if 0 < out.2 then 1 else 0, true, out.1, out.2⟩

/-- Embeds `raise SystemExit(main())` (line 240): a normal return becomes the
process exit status; an uncaught `RuntimeError` makes the interpreter exit
with status 1. -/
def processExit : RunOutcome → Nat
  | .configError => 1
  | .completed r => r.exitCode

/-- The three run gates of lines 158-172 all pass: not paused, a weekday,
inside the admission window. -/
def gatesPass (cfg : Config) (now : DateTime) : Prop :=
  cfg.dcaPause = false ∧ is_weekday_kst now = true ∧ is_target_window cfg now = true

/-! Concrete fixtures used by witnesses and counterexamples.  They follow the
default deployment values: a 30-minute window after each hour 4..10 KST, a
40000 KRW daily budget split half and half over the two markets, the default
fee rate 0.0005 and minimum order 5000 KRW. -/

/-- Default configuration with both credentials present. -/
def cfgDefault : Config :=
  ⟨30, true, [4, 5, 6, 7, 8, 9, 10], 40000, [("KRW-BTC", 1/2), ("KRW-ETH", 1/2)],
   1/2000, 5000, false, some "AK", some "SK"⟩

/-- Default configuration with the access key absent. -/
def cfgNoAccess : Config :=
  ⟨30, true, [4, 5, 6, 7, 8, 9, 10], 40000, [("KRW-BTC", 1/2), ("KRW-ETH", 1/2)],
   1/2000, 5000, false, none, some "SK"⟩

/-- Default configuration, paused and with the access key absent. -/
def cfgPausedNoAccess : Config :=
  ⟨30, true, [4, 5, 6, 7, 8, 9, 10], 40000, [("KRW-BTC", 1/2), ("KRW-ETH", 1/2)],
   1/2000, 5000, true, none, some "SK"⟩

/-- Monday 2024-01-08 04:05 KST: inside the default window. -/
def nowMonday : DateTime := ⟨2024, 1, 8, 4, 5, 0⟩

/-- Saturday 2024-01-06 04:05 KST: a weekend instant. -/
def nowSaturday : DateTime := ⟨2024, 1, 6, 4, 5, 5⟩

/-- A world where no order exists yet and every submission is accepted with
an empty JSON body.  The submission oracle ignores the price argument, so
evaluation never forces rational arithmetic. -/
def wAllAccepted : World :=
  ⟨fun _ => .status 404, fun _ _ _ => .resp 201 (some (Json.obj []))⟩

/-- A world where no order exists yet, the BTC submission is rejected with a
non-duplicate error body and the ETH submission is accepted. -/
def wBtcFails : World :=
  ⟨fun _ => .status 404,
   fun market _ _ =>
     if market == "KRW-BTC" then
       .resp 500 (some (Json.obj [("error", Json.obj [("message", Json.str "internal error")])]))
     else
       .resp 201 (some (Json.obj []))⟩

/-- A world where no order exists yet and every submission is answered with
a success status whose body is the JSON array `[]`, not an object. -/
def wSuccessNonObj : World :=
  ⟨fun _ => .status 404, fun _ _ _ => .resp 200 (some (Json.arr []))⟩

/-- A world where the BTC existence lookup raises a transport fault, the ETH
lookup finds an existing order, and every submission is accepted. -/
def wBtcLookupFault : World :=
  ⟨fun identifier => if identifier == "dca-20240108-KRW-BTC" then .fault else .status 200,
   fun _ _ _ => .resp 201 (some (Json.obj []))⟩

/-! ## Theorems -/

/-- Unfolds string concatenation to list concatenation of the character
data. -/
theorem data_append (s t : String) : (s ++ t).data = s.data ++ t.data := by
  cases s; cases t; rfl

/-- C1: the idempotency key is a deterministic pure function of the date tag
and the asset symbol; distinct symbols on one date give distinct keys;
distinct date tags for one symbol give distinct keys; and the tag derived
from a timestamp reads only the calendar date, never the hour or minute, so
one key per calendar day per asset. -/
theorem deriveKey_one_key_per_day_per_asset :
    (∀ d m : String, deriveKey d m = deriveKey d m) ∧
    (∀ d m₁ m₂ : String, m₁ ≠ m₂ → deriveKey d m₁ ≠ deriveKey d m₂) ∧
    (∀ d₁ d₂ m : String, d₁ ≠ d₂ → deriveKey d₁ m ≠ deriveKey d₂ m) ∧
    (∀ t₁ t₂ : DateTime, t₁.year = t₂.year → t₁.month = t₂.month → t₁.day = t₂.day →
      ∀ m : String, deriveKey (date_tag t₁) m = deriveKey (date_tag t₂) m) := by
  refine ⟨fun d m => rfl, ?_, ?_, ?_⟩
  · intro d m₁ m₂ hne heq
    apply hne
    have h := congrArg String.data heq
    simp only [deriveKey, data_append, List.append_assoc] at h
    have h1 := List.append_cancel_left h
    have h2 := List.append_cancel_left h1
    have h3 := List.append_cancel_left h2
    exact congrArg String.mk h3
  · intro d₁ d₂ m hne heq
    apply hne
    have h := congrArg String.data heq
    simp only [deriveKey, data_append, List.append_assoc] at h
    have h1 := List.append_cancel_left h
    exact congrArg String.mk (List.append_cancel_right h1)
  · intro t₁ t₂ hy hmo hd m
    simp [deriveKey, date_tag, hy, hmo, hd]

/-- Witness for C1 at concrete inputs: two assets on one date, and one asset
on two dates, give distinct keys. -/
theorem deriveKey_one_key_per_day_per_asset_witness :
    deriveKey "20240108" "KRW-BTC" ≠ deriveKey "20240108" "KRW-ETH" ∧
    deriveKey "20240108" "KRW-BTC" ≠ deriveKey "20240109" "KRW-BTC" :=
  ⟨deriveKey_one_key_per_day_per_asset.2.1 "20240108" "KRW-BTC" "KRW-ETH" (by decide),
   deriveKey_one_key_per_day_per_asset.2.2.1 "20240108" "20240109" "KRW-BTC" (by decide)⟩

/-- Counterexample to C3 as stated: with budget 0, fee 0 and minimum 3/2 the
allocator returns `int(3/2) = 1`, which neither respects the budget bound
(`1 * (1 + 0) ≤ 0` fails) nor equals the minimum 3/2 — the code truncates
the minimum with `int(min_total)` before using it. -/
theorem amount_net_of_fee_claim_counterexample :
    amount_net_of_fee 0 0 (3/2) = 1 ∧
    ¬(((amount_net_of_fee 0 0 (3/2) : ℚ)) * (1 + 0) ≤ 0 ∨
      ((amount_net_of_fee 0 0 (3/2) : ℚ)) = 3/2) := by
  have h : amount_net_of_fee 0 0 (3/2) = 1 := by
    norm_num [amount_net_of_fee, pyInt]
  refine ⟨h, ?_⟩
  rw [h]
  norm_num

/-- C3 amended: for nonnegative budget, fee rate and minimum, the allocator
returns `⌊B / (1 + f)⌋` unless that is below `⌊m⌋`, in which case it returns
`⌊m⌋` (the truncated minimum); consequently the spend plus fee stays within
the budget, or the result is exactly the truncated minimum.  Rounding is
floor throughout. -/
theorem amount_net_of_fee_floor_spec (B f m : ℚ) (hB : 0 ≤ B) (hf : 0 ≤ f) (hm : 0 ≤ m) :
    amount_net_of_fee B f m =
        (if ⌊B / (1 + f)⌋ < ⌊m⌋ then ⌊m⌋ else ⌊B / (1 + f)⌋) ∧
    (((amount_net_of_fee B f m : ℚ)) * (1 + f) ≤ B ∨ amount_net_of_fee B f m = ⌊m⌋) := by
  have hf1 : (0:ℚ) < 1 + f := by linarith
  have hraw : 0 ≤ B / (1 + f) := div_nonneg hB hf1.le
  have e1 : pyInt (B / (1 + f)) = ⌊B / (1 + f)⌋ := by simp [pyInt, hraw]
  have e2 : pyInt m = ⌊m⌋ := by simp [pyInt, hm]
  have hdef : amount_net_of_fee B f m =
      (if ⌊B / (1 + f)⌋ < ⌊m⌋ then ⌊m⌋ else ⌊B / (1 + f)⌋) := by
    simp only [amount_net_of_fee, e1, e2]
  refine ⟨hdef, ?_⟩
  by_cases hlt : ⌊B / (1 + f)⌋ < ⌊m⌋
  · right
    rw [hdef, if_pos hlt]
  · left
    rw [hdef, if_neg hlt]
    have h1 : ((⌊B / (1 + f)⌋ : ℚ)) ≤ B / (1 + f) := Int.floor_le _
    calc ((⌊B / (1 + f)⌋ : ℚ)) * (1 + f)
        ≤ (B / (1 + f)) * (1 + f) := mul_le_mul_of_nonneg_right h1 hf1.le
      _ = B := div_mul_cancel₀ B (ne_of_gt hf1)

/-- Witness for the amended C3 at the documented scenario: budget 20000, fee
0.0005, minimum 5000. -/
theorem amount_net_of_fee_floor_spec_witness :
    amount_net_of_fee 20000 (1/2000) 5000 =
        (if ⌊(20000 : ℚ) / (1 + 1/2000)⌋ < ⌊(5000 : ℚ)⌋ then ⌊(5000 : ℚ)⌋
         else ⌊(20000 : ℚ) / (1 + 1/2000)⌋) ∧
    (((amount_net_of_fee 20000 (1/2000) 5000 : ℚ)) * (1 + 1/2000) ≤ 20000 ∨
      amount_net_of_fee 20000 (1/2000) 5000 = ⌊(5000 : ℚ)⌋) :=
  amount_net_of_fee_floor_spec 20000 (1/2000) 5000 (by norm_num) (by norm_num) (by norm_num)

/-- C10: with strict time checking, a timestamp is admitted iff its hour is
allowed and its minute lies between 0 and `WINDOW_MINUTES` inclusive; the
boundary minute itself is admitted; and a window of N minutes admits N + 1
distinct minute values. -/
theorem window_admits_boundary_minute (cfg : Config) (hs : cfg.strictTimeOnly = true) :
    (∀ now : DateTime, is_target_window cfg now = true ↔
        (cfg.allowedHours.contains now.hour = true ∧
         0 ≤ (now.minute : Int) ∧ (now.minute : Int) ≤ cfg.windowMinutes)) ∧
    (∀ y mo d h wd, cfg.allowedHours.contains h = true → 0 ≤ cfg.windowMinutes →
        is_target_window cfg ⟨y, mo, d, h, cfg.windowMinutes.toNat, wd⟩ = true) ∧
    (∀ y mo d h wd, cfg.allowedHours.contains h = true → 0 ≤ cfg.windowMinutes →
        cfg.windowMinutes ≤ 59 →
        ((Finset.range 60).filter
            (fun mi => is_target_window cfg ⟨y, mo, d, h, mi, wd⟩ = true)).card
          = cfg.windowMinutes.toNat + 1) := by
  have hiff : ∀ now : DateTime, is_target_window cfg now = true ↔
      (cfg.allowedHours.contains now.hour = true ∧
       0 ≤ (now.minute : Int) ∧ (now.minute : Int) ≤ cfg.windowMinutes) := by
    intro now
    simp [is_target_window, hs, Bool.and_eq_true, decide_eq_true_eq, and_assoc]
  refine ⟨hiff, ?_, ?_⟩
  · intro y mo d h wd hh hw
    rw [hiff]
    refine ⟨hh, by positivity, ?_⟩
    simp [Int.toNat_of_nonneg hw]
  · intro y mo d h wd hh hw h59
    have hset : ((Finset.range 60).filter
        (fun mi => is_target_window cfg ⟨y, mo, d, h, mi, wd⟩ = true))
        = Finset.range (cfg.windowMinutes.toNat + 1) := by
      ext mi
      simp only [Finset.mem_filter, Finset.mem_range,
        hiff ⟨y, mo, d, h, mi, wd⟩, hh, true_and]
      omega
    rw [hset, Finset.card_range]

/-- Witness for C10: the default 30-minute window over hour 4 admits exactly
31 minute values. -/
theorem window_admits_boundary_minute_witness :
    ((Finset.range 60).filter
        (fun mi => is_target_window cfgDefault ⟨2024, 1, 8, 4, mi, 0⟩ = true)).card = 31 := by
  have h := (window_admits_boundary_minute cfgDefault rfl).2.2 2024 1 8 4 0
    (by decide) (by decide) (by decide)
  simpa using h

/-- A body whose error message carries duplicate wording is classified as a
duplicate by the classifier of lines 88-102. -/
theorem is_duplicate_of_message (j : Json) (m : String)
    (hm : errorMessage j = some m) (hd : dupWording m = true) :
    is_duplicate_identifier_error j = some true := by
  cases j <;> simp_all [is_duplicate_identifier_error, errorMessage]

/-- A body with duplicate wording neither in its message nor in its
serialized `errors` field is never classified as a duplicate. -/
theorem is_duplicate_ne_of_no_wording (j : Json) (h : bodyHasDupWording j = false) :
    is_duplicate_identifier_error j ≠ some true := by
  cases j with
  | obj fs =>
    cases hm : errorMessage (Json.obj fs) with
    | none => simp [is_duplicate_identifier_error, hm]
    | some m =>
      cases hed : errorsDump (Json.obj fs) with
      | none =>
        simp only [bodyHasDupWording, hm, errorsFieldDup, hed,
          Bool.or_eq_false_iff] at h
        simp [is_duplicate_identifier_error, hm, hed, h.1]
      | some s =>
        simp only [bodyHasDupWording, hm, errorsFieldDup, hed,
          Bool.or_eq_false_iff] at h
        simp [is_duplicate_identifier_error, hm, hed, h.1, h.2]
  | null => simp [is_duplicate_identifier_error]
  | bool b => simp [is_duplicate_identifier_error]
  | num n => simp [is_duplicate_identifier_error]
  | str s => simp [is_duplicate_identifier_error]
  | arr xs => simp [is_duplicate_identifier_error]

/-- C2: for an HTTP error status (400-599), a body whose error message
carries the wording that the identifier was already used makes the gateway
return the synthetic duplicate dict — and the orchestrator then counts no
failure for that asset; a body without such wording anywhere re-raises, so
the submission is classified failed. -/
theorem duplicate_wording_is_no_op (status : Nat) (j : Json) (idf mkt : String)
    (h4 : 400 ≤ status) (h6 : status < 600) :
    (∀ m, errorMessage j = some m → dupWording m = true →
      place_market_buy (.resp status (some j)) idf mkt = .duplicateAccepted idf mkt ∧
      ∀ cfg dTag w p,
        w.submit p.1 (amount_net_of_fee (cfg.dailyBudgetKrw * p.2) cfg.feeRate cfg.minOrderKrw)
            (deriveKey dTag p.1) = .resp status (some j) →
        submissionFailed cfg dTag w p = false) ∧
    (bodyHasDupWording j = false →
      place_market_buy (.resp status (some j)) idf mkt = .raised ∧
      ∀ cfg dTag w p,
        w.submit p.1 (amount_net_of_fee (cfg.dailyBudgetKrw * p.2) cfg.feeRate cfg.minOrderKrw)
            (deriveKey dTag p.1) = .resp status (some j) →
        submissionFailed cfg dTag w p = true) := by
  constructor
  · intro m hm hd
    have hdup := is_duplicate_of_message j m hm hd
    constructor
    · simp [place_market_buy, if_pos (And.intro h4 h6), hdup]
    · intro cfg dTag w p hsub
      simp [submissionFailed, submitRespOf, hsub, place_market_buy,
        if_pos (And.intro h4 h6), hdup]
  · intro h
    have hne := is_duplicate_ne_of_no_wording j h
    have hplace : ∀ idf2 mkt2 : String,
        place_market_buy (.resp status (some j)) idf2 mkt2 = .raised := by
      intro idf2 mkt2
      cases hv : is_duplicate_identifier_error j with
      | none => simp [place_market_buy, if_pos (And.intro h4 h6), hv]
      | some b =>
        cases b with
        | false => simp [place_market_buy, if_pos (And.intro h4 h6), hv]
        | true => exact absurd hv hne
    refine ⟨hplace idf mkt, ?_⟩
    intro cfg dTag w p hsub
    simp [submissionFailed, submitRespOf, hsub, hplace]

/-- Witness for C2: a 400 response whose message reads `"Identifier Already
taken"` is accepted as a duplicate, and one reading `"insufficient funds"`
re-raises. -/
theorem duplicate_wording_is_no_op_witness :
    place_market_buy
        (.resp 400 (some (Json.obj [("error",
          Json.obj [("message", Json.str "Identifier Already taken")])])))
        "dca-20240108-KRW-BTC" "KRW-BTC"
      = .duplicateAccepted "dca-20240108-KRW-BTC" "KRW-BTC" ∧
    place_market_buy
        (.resp 400 (some (Json.obj [("error",
          Json.obj [("message", Json.str "insufficient funds")])])))
        "dca-20240108-KRW-BTC" "KRW-BTC"
      = .raised :=
  ⟨((duplicate_wording_is_no_op 400
      (Json.obj [("error", Json.obj [("message", Json.str "Identifier Already taken")])])
      "dca-20240108-KRW-BTC" "KRW-BTC" (by decide) (by decide)).1
      "identifier already taken" (by decide) (by decide)).1,
   ((duplicate_wording_is_no_op 400
      (Json.obj [("error", Json.obj [("message", Json.str "insufficient funds")])])
      "dca-20240108-KRW-BTC" "KRW-BTC" (by decide) (by decide)).2 (by decide)).1⟩

/-- The `ok` test of line 198 is the complement of an explicit failure
signal in the result field. -/
theorem resultOk_eq_not_signals (fs : List (String × Json)) :
    resultOk fs = !resultSignalsFailure fs := by
  rcases hf : (fs.find? fun p => p.1 == "result") with _ | p
  · simp [resultOk, resultSignalsFailure, hf]
  · cases hp : p.2 <;> simp [resultOk, resultSignalsFailure, hf, hp]

/-- Counterexample to C7 as stated: a 200 response whose body is the JSON
array `[]` carries no business-result field at all — nothing explicitly
signals failure — yet `res.get("result")` raises on line 198 and the asset
is counted as an error on line 219; a 200 response with an unparseable body
likewise raises inside `r.json()` on line 133. -/
theorem success_status_claim_counterexample :
    wSuccessNonObj.submit "KRW-BTC" 19990 "dca-20240108-KRW-BTC"
      = .resp 200 (some (Json.arr [])) ∧
    place_market_buy (.resp 200 (some (Json.arr []))) "dca-20240108-KRW-BTC" "KRW-BTC"
      = .ok (Json.arr []) ∧
    submissionFailed cfgDefault "20240108" wSuccessNonObj ("KRW-BTC", (1/2 : ℚ)) = true ∧
    place_market_buy (.resp 200 none) "dca-20240108-KRW-BTC" "KRW-BTC" = .raised := by
  exact ⟨rfl, rfl, rfl, rfl⟩

/-- C7 amended: a response with a success status is returned as-is by the
gateway; when its body parses to a JSON object, the orchestrator counts the
asset as accepted exactly when the embedded business-result field does not
explicitly signal failure; a success response whose body is unparseable or
not a JSON object is counted as an error (the body or result-field access
raises). -/
theorem success_status_accepted (status : Nat) (idf mkt : String) (hst : status < 400) :
    (∀ fs, place_market_buy (.resp status (some (.obj fs))) idf mkt = .ok (.obj fs)) ∧
    (∀ fs cfg dTag w p,
      w.submit p.1 (amount_net_of_fee (cfg.dailyBudgetKrw * p.2) cfg.feeRate cfg.minOrderKrw)
          (deriveKey dTag p.1) = .resp status (some (.obj fs)) →
      (resultSignalsFailure fs = false → submissionFailed cfg dTag w p = false) ∧
      (resultSignalsFailure fs = true → submissionFailed cfg dTag w p = true)) ∧
    (∀ body : Option Json, (∀ fs, body ≠ some (Json.obj fs)) →
      ∀ cfg dTag w p,
        w.submit p.1 (amount_net_of_fee (cfg.dailyBudgetKrw * p.2) cfg.feeRate cfg.minOrderKrw)
            (deriveKey dTag p.1) = .resp status body →
        submissionFailed cfg dTag w p = true) := by
  have hcond : ¬(400 ≤ status ∧ status < 600) := by omega
  refine ⟨?_, ?_, ?_⟩
  · intro fs
    simp [place_market_buy, if_neg hcond]
  · intro fs cfg dTag w p hsub
    have hfail : submissionFailed cfg dTag w p = !resultOk fs := by
      simp [submissionFailed, submitRespOf, hsub, place_market_buy, if_neg hcond]
    rw [hfail, resultOk_eq_not_signals]
    constructor <;> intro h <;> simp [h]
  · intro body hne cfg dTag w p hsub
    cases body with
    | none => simp [submissionFailed, submitRespOf, hsub, place_market_buy, if_neg hcond]
    | some j =>
      cases j with
      | obj fs => exact absurd rfl (hne fs)
      | null => simp [submissionFailed, submitRespOf, hsub, place_market_buy, if_neg hcond]
      | bool b => simp [submissionFailed, submitRespOf, hsub, place_market_buy, if_neg hcond]
      | num n => simp [submissionFailed, submitRespOf, hsub, place_market_buy, if_neg hcond]
      | str s => simp [submissionFailed, submitRespOf, hsub, place_market_buy, if_neg hcond]
      | arr xs => simp [submissionFailed, submitRespOf, hsub, place_market_buy, if_neg hcond]

/-- Witness for the amended C7: a 201 response whose object body has no
result field is accepted and not counted as a failure; a 200 response whose
body is the array `[]` is counted as a failure. -/
theorem success_status_accepted_witness :
    place_market_buy (.resp 201 (some (.obj []))) "id-1" "KRW-BTC" = .ok (.obj []) ∧
    submissionFailed cfgDefault "20240108" wAllAccepted ("KRW-BTC", (1/2 : ℚ)) = false ∧
    submissionFailed cfgDefault "20240109" wSuccessNonObj ("KRW-ETH", (1/2 : ℚ)) = true := by
  have h1 := success_status_accepted 201 "id-1" "KRW-BTC" (by decide)
  have h2 := success_status_accepted 200 "id-1" "KRW-BTC" (by decide)
  refine ⟨h1.1 [], (h1.2.1 [] cfgDefault "20240108" wAllAccepted ("KRW-BTC", 1/2) rfl).1
    (by decide), ?_⟩
  exact h2.2.2 (some (Json.arr [])) (by intro fs heq; simp at heq)
    cfgDefault "20240109" wSuccessNonObj ("KRW-ETH", 1/2) rfl

/-- The error counter of the order loop counts exactly the assets whose
submission is classified failed, each contributing one. -/
theorem runOrders_errors (cfg : Config) (dTag : String) (w : World)
    (todo : List (String × ℚ)) :
    (runOrders cfg dTag w todo).2
      = ((todo.filter (fun q => submissionFailed cfg dTag w q)).length) := by
  induction todo with
  | nil => rfl
  | cons p rest ih =>
    cases hr : submitRespOf cfg dTag w p with
    | raised =>
      have hstep : submissionFailed cfg dTag w p = true := by
        simp [submissionFailed, hr]
      simp [runOrders, hr, List.filter_cons, hstep, ih]
    | ok body =>
      cases body with
      | obj fs =>
        by_cases hok : resultOk fs = true
        · have hstep : submissionFailed cfg dTag w p = false := by
            simp [submissionFailed, hr, hok]
          simp [runOrders, hr, List.filter_cons, hstep, hok, ih]
        · have hok' : resultOk fs = false := by simpa using hok
          have hstep : submissionFailed cfg dTag w p = true := by
            simp [submissionFailed, hr, hok']
          simp [runOrders, hr, List.filter_cons, hstep, hok', ih]
      | null =>
        have hstep : submissionFailed cfg dTag w p = true := by
          simp [submissionFailed, hr]
        simp [runOrders, hr, List.filter_cons, hstep, ih]
      | bool b =>
        have hstep : submissionFailed cfg dTag w p = true := by
          simp [submissionFailed, hr]
        simp [runOrders, hr, List.filter_cons, hstep, ih]
      | num n =>
        have hstep : submissionFailed cfg dTag w p = true := by
          simp [submissionFailed, hr]
        simp [runOrders, hr, List.filter_cons, hstep, ih]
      | str s =>
        have hstep : submissionFailed cfg dTag w p = true := by
          simp [submissionFailed, hr]
        simp [runOrders, hr, List.filter_cons, hstep, ih]
      | arr xs =>
        have hstep : submissionFailed cfg dTag w p = true := by
          simp [submissionFailed, hr]
        simp [runOrders, hr, List.filter_cons, hstep, ih]
    | duplicateAccepted i m =>
      have hstep : submissionFailed cfg dTag w p = false := by
        simp [submissionFailed, hr]
      simp [runOrders, hr, List.filter_cons, hstep, ih]

/-- The records of the order loop list exactly the assets whose loop body
reached the append, in order. -/
theorem runOrders_markets (cfg : Config) (dTag : String) (w : World)
    (todo : List (String × ℚ)) :
    (runOrders cfg dTag w todo).1.map (fun rec => rec.market)
      = ((todo.filter (fun q => submissionRecorded cfg dTag w q)).map (fun q => q.1)) := by
  induction todo with
  | nil => rfl
  | cons p rest ih =>
    cases hr : submitRespOf cfg dTag w p with
    | raised =>
      have hstep : submissionRecorded cfg dTag w p = false := by
        simp [submissionRecorded, hr]
      simp [runOrders, hr, List.filter_cons, hstep, ih]
    | ok body =>
      cases body with
      | obj fs =>
        have hstep : submissionRecorded cfg dTag w p = true := by
          simp [submissionRecorded, hr]
        simp [runOrders, hr, List.filter_cons, hstep, ih]
      | null =>
        have hstep : submissionRecorded cfg dTag w p = false := by
          simp [submissionRecorded, hr]
        simp [runOrders, hr, List.filter_cons, hstep, ih]
      | bool b =>
        have hstep : submissionRecorded cfg dTag w p = false := by
          simp [submissionRecorded, hr]
        simp [runOrders, hr, List.filter_cons, hstep, ih]
      | num n =>
        have hstep : submissionRecorded cfg dTag w p = false := by
          simp [submissionRecorded, hr]
        simp [runOrders, hr, List.filter_cons, hstep, ih]
      | str s =>
        have hstep : submissionRecorded cfg dTag w p = false := by
          simp [submissionRecorded, hr]
        simp [runOrders, hr, List.filter_cons, hstep, ih]
      | arr xs =>
        have hstep : submissionRecorded cfg dTag w p = false := by
          simp [submissionRecorded, hr]
        simp [runOrders, hr, List.filter_cons, hstep, ih]
    | duplicateAccepted i m =>
      have hstep : submissionRecorded cfg dTag w p = true := by
        simp [submissionRecorded, hr]
      simp [runOrders, hr, List.filter_cons, hstep, ih]

/-- A run whose gates all pass and whose credentials are present completes
with an error count equal to the number of failed submissions, records for
every asset whose loop body finished, the exit-code rule, and a summary
exactly when there was at least one asset to order. -/
theorem main_gates_characterization (cfg : Config) (now : DateTime) (w : World)
    (ha : envFalsy cfg.accessKey = false) (hs : envFalsy cfg.secretKey = false)
    (hg : gatesPass cfg now) :
    ∃ r, main cfg now w = .completed r ∧
      r.errors = ((marketsTodo cfg (date_tag now) w).filter
        (fun q => submissionFailed cfg (date_tag now) w q)).length ∧
      r.results.map (fun rec => rec.market)
        = ((marketsTodo cfg (date_tag now) w).filter
            (fun q => submissionRecorded cfg (date_tag now) w q)).map (fun q => q.1) ∧
      r.exitCode = (if r.errors = 0 then 0 else 1) ∧
      r.summaryPrinted = !(marketsTodo cfg (date_tag now) w).isEmpty := by
  obtain ⟨hp, hwd, hwin⟩ := hg
  have hreq : require_env cfg.accessKey cfg.secretKey = .ok () := by
    simp [require_env, ha, hs]
  cases htodo : marketsTodo cfg (date_tag now) w with
  | nil =>
    refine ⟨⟨0, false, [], 0⟩, ?_, ?_, ?_, ?_, ?_⟩
    · simp [main, hp, hreq, hwd, hwin, htodo]
    · simp
    · simp
    · simp
    · simp
  | cons q qs =>
    refine ⟨⟨if 0 < (runOrders cfg (date_tag now) w (q :: qs)).2 then 1 else 0, true,
             (runOrders cfg (date_tag now) w (q :: qs)).1,
             (runOrders cfg (date_tag now) w (q :: qs)).2⟩, ?_, ?_, ?_, ?_, ?_⟩
    · simp [main, hp, hreq, hwd, hwin, htodo]
    · exact runOrders_errors cfg (date_tag now) w (q :: qs)
    · exact runOrders_markets cfg (date_tag now) w (q :: qs)
    · rcases Nat.eq_zero_or_pos ((runOrders cfg (date_tag now) w (q :: qs)).2) with h0 | h0
      · simp [h0]
      · simp [h0, Nat.pos_iff_ne_zero.mp h0]
    · simp

/-- Counterexample to C4 as stated: a non-paused run with a missing access
key classifies no submission as failed (it aborts before any submission),
yet the process exit status is 1, not 0. -/
theorem exit_contract_claim_counterexample :
    main cfgNoAccess nowMonday wAllAccepted = .configError ∧
    processExit (main cfgNoAccess nowMonday wAllAccepted) ≠ 0 := by
  constructor
  · rfl
  · intro h
    simp [main, cfgNoAccess, require_env, envFalsy, processExit] at h

/-- C4 amended: on every invocation whose required credentials are present,
the process exit status is 0 exactly when no submission was classified
failed — the paused, wrong-weekday, outside-window and all-orders-exist
no-op runs all have zero failures and exit 0 — and 1 when at least one
submission was classified failed. -/
theorem exit_zero_iff_no_failures (cfg : Config) (now : DateTime) (w : World)
    (ha : envFalsy cfg.accessKey = false) (hs : envFalsy cfg.secretKey = false) :
    ∃ r, main cfg now w = .completed r ∧
      processExit (main cfg now w) = (if r.errors = 0 then 0 else 1) ∧
      (gatesPass cfg now →
        r.errors = ((marketsTodo cfg (date_tag now) w).filter
          (fun q => submissionFailed cfg (date_tag now) w q)).length) ∧
      (¬ gatesPass cfg now → r.errors = 0) := by
  have hreq : require_env cfg.accessKey cfg.secretKey = .ok () := by
    simp [require_env, ha, hs]
  by_cases hp : cfg.dcaPause = true
  · refine ⟨⟨0, false, [], 0⟩, ?_, ?_, ?_, ?_⟩
    · simp [main, hp]
    · simp [main, hp, processExit]
    · intro hg
      rw [hg.1] at hp
      cases hp
    · intro _
      rfl
  · replace hp : cfg.dcaPause = false := by simpa using hp
    by_cases hwd : is_weekday_kst now = true
    · by_cases hwin : is_target_window cfg now = true
      · obtain ⟨r, hmain, herr, _, hexit, _⟩ :=
          main_gates_characterization cfg now w ha hs ⟨hp, hwd, hwin⟩
        refine ⟨r, hmain, ?_, fun _ => herr, ?_⟩
        · rw [hmain, processExit, hexit]
        · intro hng
          exact absurd ⟨hp, hwd, hwin⟩ hng
      · have hwin' : is_target_window cfg now = false := by simpa using hwin
        refine ⟨⟨0, false, [], 0⟩, ?_, ?_, ?_, ?_⟩
        · simp [main, hp, hreq, hwd, hwin']
        · simp [main, hp, hreq, hwd, hwin', processExit]
        · intro hg
          rw [hg.2.2] at hwin'
          cases hwin'
        · intro _
          rfl
    · have hwd' : is_weekday_kst now = false := by simpa using hwd
      refine ⟨⟨0, false, [], 0⟩, ?_, ?_, ?_, ?_⟩
      · simp [main, hp, hreq, hwd']
      · simp [main, hp, hreq, hwd', processExit]
      · intro hg
        rw [hg.2.1] at hwd'
        cases hwd'
      · intro _
        rfl

/-- Witness for the amended C4: a run in which the BTC submission is
rejected with a non-duplicate error and the ETH submission succeeds. -/
theorem exit_zero_iff_no_failures_witness :
    ∃ r, main cfgDefault nowMonday wBtcFails = .completed r ∧
      processExit (main cfgDefault nowMonday wBtcFails) = (if r.errors = 0 then 0 else 1) ∧
      (gatesPass cfgDefault nowMonday →
        r.errors = ((marketsTodo cfgDefault (date_tag nowMonday) wBtcFails).filter
          (fun q => submissionFailed cfgDefault (date_tag nowMonday) wBtcFails q)).length) ∧
      (¬ gatesPass cfgDefault nowMonday → r.errors = 0) :=
  exit_zero_iff_no_failures cfgDefault nowMonday wBtcFails rfl rfl

/-- C5: with the gates passed, the error count equals the number of assets
whose own submission was classified failed (each failure contributes exactly
one and aborts nothing), every asset whose loop body completed is still
recorded with its own outcome, and any failure forces exit status 1. -/
theorem submission_failure_isolated (cfg : Config) (now : DateTime) (w : World)
    (ha : envFalsy cfg.accessKey = false) (hs : envFalsy cfg.secretKey = false)
    (hg : gatesPass cfg now) :
    ∃ r, main cfg now w = .completed r ∧
      r.errors = ((marketsTodo cfg (date_tag now) w).filter
        (fun q => submissionFailed cfg (date_tag now) w q)).length ∧
      r.results.map (fun rec => rec.market)
        = ((marketsTodo cfg (date_tag now) w).filter
            (fun q => submissionRecorded cfg (date_tag now) w q)).map (fun q => q.1) ∧
      (∀ p ∈ marketsTodo cfg (date_tag now) w,
        submissionRecorded cfg (date_tag now) w p = true →
          p.1 ∈ r.results.map (fun rec => rec.market)) ∧
      (0 < r.errors → processExit (main cfg now w) = 1) := by
  obtain ⟨r, hmain, herr, hmarkets, hexit, _⟩ :=
    main_gates_characterization cfg now w ha hs hg
  refine ⟨r, hmain, herr, hmarkets, ?_, ?_⟩
  · intro p hmem hrec
    rw [hmarkets]
    exact List.mem_map_of_mem (fun q => q.1) (List.mem_filter.mpr ⟨hmem, hrec⟩)
  · intro hpos
    rw [hmain, processExit, hexit, if_neg (Nat.pos_iff_ne_zero.mp hpos)]

/-- Witness for C5: with the BTC submission rejected (non-duplicate) and the
ETH submission accepted, the failure is isolated and the run exits 1. -/
theorem submission_failure_isolated_witness :
    ∃ r, main cfgDefault nowMonday wBtcFails = .completed r ∧
      r.errors = ((marketsTodo cfgDefault (date_tag nowMonday) wBtcFails).filter
        (fun q => submissionFailed cfgDefault (date_tag nowMonday) wBtcFails q)).length ∧
      r.results.map (fun rec => rec.market)
        = ((marketsTodo cfgDefault (date_tag nowMonday) wBtcFails).filter
            (fun q => submissionRecorded cfgDefault (date_tag nowMonday) wBtcFails q)).map
          (fun q => q.1) ∧
      (∀ p ∈ marketsTodo cfgDefault (date_tag nowMonday) wBtcFails,
        submissionRecorded cfgDefault (date_tag nowMonday) wBtcFails p = true →
          p.1 ∈ r.results.map (fun rec => rec.market)) ∧
      (0 < r.errors → processExit (main cfgDefault nowMonday wBtcFails) = 1) :=
  submission_failure_isolated cfgDefault nowMonday wBtcFails rfl rfl
    ⟨rfl, rfl, by decide⟩

/-- C6: a transport fault during the existence lookup is reported as "order
does not exist", so the asset stays in the todo list and its submission is
still attempted; and the error count of a completed run counts only failed
submissions, never lookup outcomes. -/
theorem lookup_fault_fails_open (cfg : Config) (now : DateTime) (w : World)
    (p : String × ℚ) (hmem : p ∈ cfg.pairs)
    (hf : w.lookup (deriveKey (date_tag now) p.1) = .fault) :
    order_exists_by_identifier w (deriveKey (date_tag now) p.1) = false ∧
    p ∈ marketsTodo cfg (date_tag now) w ∧
    (∀ r, envFalsy cfg.accessKey = false → envFalsy cfg.secretKey = false →
      gatesPass cfg now → main cfg now w = .completed r →
      r.errors = ((marketsTodo cfg (date_tag now) w).filter
        (fun q => submissionFailed cfg (date_tag now) w q)).length) := by
  have hnotfound : order_exists_by_identifier w (deriveKey (date_tag now) p.1) = false := by
    simp [order_exists_by_identifier, hf]
  refine ⟨hnotfound, ?_, ?_⟩
  · exact List.mem_filter.mpr ⟨hmem, by simp [hnotfound]⟩
  · intro r ha hs hg hmain
    obtain ⟨r', hmain', herr, _⟩ := main_gates_characterization cfg now w ha hs hg
    rw [hmain] at hmain'
    cases hmain'
    exact herr

/-- Witness for C6: the BTC lookup faults, BTC is still attempted (and
accepted) while ETH is skipped as already existing, and the completed run
counts zero errors. -/
theorem lookup_fault_fails_open_witness :
    order_exists_by_identifier wBtcLookupFault
        (deriveKey (date_tag nowMonday) "KRW-BTC") = false ∧
    ("KRW-BTC", (1/2 : ℚ)) ∈ marketsTodo cfgDefault (date_tag nowMonday) wBtcLookupFault ∧
    (∀ r, envFalsy cfgDefault.accessKey = false → envFalsy cfgDefault.secretKey = false →
      gatesPass cfgDefault nowMonday →
      main cfgDefault nowMonday wBtcLookupFault = .completed r →
      r.errors = ((marketsTodo cfgDefault (date_tag nowMonday) wBtcLookupFault).filter
        (fun q => submissionFailed cfgDefault (date_tag nowMonday) wBtcLookupFault q)).length) :=
  lookup_fault_fails_open cfgDefault nowMonday wBtcLookupFault ("KRW-BTC", 1/2)
    (by simp [cfgDefault]) rfl

/-- Counterexample to C8 as stated: a paused invocation with the access key
absent does not raise the configuration error at all — the pause
short-circuit of line 158 runs before `_require_env` — and exits 0. -/
theorem credentials_claim_counterexample :
    envFalsy cfgPausedNoAccess.accessKey = true ∧
    main cfgPausedNoAccess nowMonday wAllAccepted = .completed ⟨0, false, [], 0⟩ ∧
    processExit (main cfgPausedNoAccess nowMonday wAllAccepted) = 0 := by
  exact ⟨rfl, rfl, rfl⟩

/-- C8 amended: on every non-paused invocation with a credential absent the
run aborts with the configuration error — uniformly in the network oracle,
i.e. before any network activity can influence or be influenced by it. -/
theorem missing_credentials_abort (cfg : Config) (hp : cfg.dcaPause = false)
    (hc : (envFalsy cfg.accessKey || envFalsy cfg.secretKey) = true) :
    ∀ (now : DateTime) (w : World), main cfg now w = .configError := by
  intro now w
  simp [main, hp, require_env, hc]

/-- Witness for the amended C8: the non-paused missing-access-key run aborts
for a concrete time and world. -/
theorem missing_credentials_abort_witness :
    main cfgNoAccess nowMonday wAllAccepted = .configError :=
  missing_credentials_abort cfgNoAccess rfl rfl nowMonday wAllAccepted

/-- Counterexample to C9 as stated: a non-paused weekend run completes
without writing the JSON summary — the early returns of lines 166-187 skip
the `print` of line 224. -/
theorem summary_claim_counterexample :
    cfgDefault.dcaPause = false ∧
    main cfgDefault nowSaturday wAllAccepted = .completed ⟨0, false, [], 0⟩ := by
  exact ⟨rfl, rfl⟩

/-- C9 amended: the JSON summary is written to standard output exactly on
the runs that pass the pause, weekday and window gates with at least one
asset left to order; gated no-op and all-orders-exist runs emit no JSON
summary. -/
theorem summary_printed_iff (cfg : Config) (now : DateTime) (w : World) :
    ∀ r, main cfg now w = .completed r →
      (r.summaryPrinted = true ↔
        (gatesPass cfg now ∧ marketsTodo cfg (date_tag now) w ≠ [])) := by
  intro r hmain
  by_cases hp : cfg.dcaPause = true
  · have : main cfg now w = .completed ⟨0, false, [], 0⟩ := by simp [main, hp]
    rw [this] at hmain
    cases hmain
    simp [gatesPass, hp]
  · replace hp : cfg.dcaPause = false := by simpa using hp
    cases hreq : require_env cfg.accessKey cfg.secretKey with
    | error e =>
      have : main cfg now w = .configError := by simp [main, hp, hreq]
      rw [this] at hmain
      cases hmain
    | ok u =>
      have ha : envFalsy cfg.accessKey = false ∧ envFalsy cfg.secretKey = false := by
        by_contra hcon
        rw [not_and_or] at hcon
        have hor : (envFalsy cfg.accessKey || envFalsy cfg.secretKey) = true := by
          rcases hcon with h | h
          · have h' : envFalsy cfg.accessKey = true := by simpa using h
            simp [h']
          · have h' : envFalsy cfg.secretKey = true := by simpa using h
            simp [h']
        simp [require_env, hor] at hreq
      by_cases hwd : is_weekday_kst now = true
      · by_cases hwin : is_target_window cfg now = true
        · obtain ⟨r', hmain', _, _, _, hsum⟩ :=
            main_gates_characterization cfg now w ha.1 ha.2 ⟨hp, hwd, hwin⟩
          rw [hmain] at hmain'
          cases hmain'
          rw [hsum]
          cases htodo : marketsTodo cfg (date_tag now) w with
          | nil => simp
          | cons q qs => simp [gatesPass, hp, hwd, hwin]
        · have hwin' : is_target_window cfg now = false := by simpa using hwin
          have : main cfg now w = .completed ⟨0, false, [], 0⟩ := by
            simp [main, hp, hreq, hwd, hwin']
          rw [this] at hmain
          cases hmain
          simp [gatesPass, hwin']
      · have hwd' : is_weekday_kst now = false := by simpa using hwd
        have : main cfg now w = .completed ⟨0, false, [], 0⟩ := by
          simp [main, hp, hreq, hwd']
        rw [this] at hmain
        cases hmain
        simp [gatesPass, hwd']

/-- Witness for the amended C9: a run that places orders prints the summary,
by the iff applied at a concrete completed run. -/
theorem summary_printed_iff_witness :
    ∃ r, main cfgDefault nowMonday wAllAccepted = .completed r ∧
      r.summaryPrinted = true := by
  obtain ⟨r, hmain, -, -, -, hsum⟩ :=
    main_gates_characterization cfgDefault nowMonday wAllAccepted rfl rfl
      ⟨rfl, rfl, by decide⟩
  refine ⟨r, hmain, ?_⟩
  exact (summary_printed_iff cfgDefault nowMonday wAllAccepted r hmain).mpr
    ⟨⟨rfl, rfl, by decide⟩, by decide⟩

end UpbitDca
